import Mathlib

/-!
Verification development for the agent-orchestration web server of the
learn-claude-code repository (src/web_ui/server.py), together with the
Sandbox operations specified for the agent modules.

Modelling conventions: Python dictionaries become functions into Option,
Python lists become Lean lists, strings stay strings (compared as their
character lists), and each stateful HTTP handler becomes a pure function
from a server state to an updated state or an error.  A raised exception
that the handler does not catch is an Except.error result.
-/

namespace WebUI

/-! ## Path resolution (spec side)

The Sandbox component (its resolvePath operation) is implemented in
v1_basic_agent.py, which is not among the provided source files.  The
definitions below follow the words of the spec and are used to state which
paths the spec deems to escape the workspace root. -/

/-- Split a character list at every slash character (helper for
canonicalResolve). -/
def splitSlash : List Char → List Char → List (List Char)
  | acc, [] => [acc.reverse]
  | acc, c :: rest =>
    if c = '/' then acc.reverse :: splitSlash [] rest
    else splitSlash (c :: acc) rest

/-- Normalize path segments: drop empty and dot segments, let a dot-dot
segment pop the previous one (helper for canonicalResolve).  The first
argument is the stack of kept segments in reverse order. -/
def normSegs : List (List Char) → List (List Char) → List (List Char)
  | stack, [] => stack.reverse
  | stack, s :: rest =>
    if s = [] ∨ s = ['.'] then normSegs stack rest
    else if s = ['.', '.'] then normSegs stack.tail rest
    else normSegs (s :: stack) rest

/-- Join path segments with slashes (helper for canonicalResolve). -/
def joinSlash : List (List Char) → List Char
  | [] => []
  | [s] => s
  | s :: rest => s ++ '/' :: joinSlash rest

/-- Modelled from the spec: the canonical resolution performed by the
Sandbox resolvePath (spec section 4.1) — resolve the input against the
workspace root (absolute inputs resolve on their own), normalizing dot and
dot-dot segments.  The workspace root is assumed to be an absolute
canonical path without a trailing slash. -/
def canonicalResolve (root p : String) : String :=
  let psegs := splitSlash [] p.data
  let base :=
    match p.data with
    | '/' :: _ => psegs
    | _ => splitSlash [] root.data ++ psegs
  String.mk ('/' :: joinSlash (normSegs [] base))

/-- Modelled from the spec: whether a canonical path is the workspace root
itself or a descendant of it (the containment test of resolvePath). -/
def underRoot (root p : String) : Bool :=
  p == root || (root.data ++ ['/']).isPrefixOf p.data

/-! ## Web UI file tools (src/web_ui/server.py, lines 172-231)

The filesystem is modelled as a function from path strings to optional
file contents.  read_file opens exactly the path it was given; write_file
writes exactly the path it was given; neither consults a workspace root. -/

/-- Result of the web UI read_file tool: the file contents on success, or
the error string built from the caught exception (server.py line 192). -/
inductive ReadResult where
  | content (text : String)
  | errorRead
  deriving DecidableEq

/-- Web UI read_file (server.py lines 172-199): open the given path and
return its contents; a failed open is caught and reported as an error
string.  The path is used exactly as given — there is no resolution
against a workspace root and no escape check. -/
def read_file (fs : String → Option String) (file_path : String) : ReadResult :=
  match fs file_path with
  | some text => .content text
  | none => .errorRead

/-- Directory part of a path, as os.path.dirname computes it: everything
before the last slash, with trailing slashes stripped unless the result
consists only of slashes; the empty string when the path has no slash. -/
def dirname (p : String) : String :=
  if '/' ∈ p.data then
    let headRev := p.data.reverse.dropWhile (fun c => ¬ c = '/')
    let stripped := headRev.dropWhile (fun c => c = '/')
    if stripped = [] then String.mk headRev.reverse
    else String.mk stripped.reverse
  else ""

/-- Result of the web UI write_file tool: the character count reported on
success (server.py line 215), or the error string from a caught
exception. -/
inductive WriteResult where
  | wrote (chars : Nat)
  | errorWrite
  deriving DecidableEq

/-- Web UI write_file (server.py lines 202-231): create the parent
directories of the given path (os.makedirs raises when the dirname is
empty, which the handler catches and reports as an error string) and then
write the content at exactly the given path — with no resolution against a
workspace root and no escape check. -/
def write_file (fs : String → Option String) (file_path content : String) :
    (String → Option String) × WriteResult :=
  if dirname file_path = "" then (fs, .errorWrite)
  else ((fun q => if q = file_path then some content else fs q), .wrote content.length)

/-! ## Web UI bash tool (src/web_ui/server.py, lines 137-169) -/

/-- Outcome of the web UI bash tool: the list of commands handed to the
shell (a singleton — the tool spawns unconditionally) and the combined
output returned to the caller (stdout if nonempty, stderr otherwise,
mirroring server.py line 152). -/
structure BashOutcome where
  spawned : List String
  result : String
  deriving DecidableEq

/-- Web UI execute_bash (server.py lines 137-169): pass the command to the
shell and return its output.  The shell parameter models
asyncio.create_subprocess_shell as a function from a command to its
(stdout, stderr) pair.  No inspection of the command text happens before
the spawn — the function contains no blocklist. -/
def execute_bash (shell : String → String × String) (command : String) : BashOutcome :=
  let out := (shell command).1
  let err := (shell command).2
  { spawned := [command], result := if out = "" then err else out }

/-- Check whether the second character list occurs contiguously inside the
first one. -/
def containsSeq (pat : List Char) : List Char → Bool
  | [] => pat.isPrefixOf []
  | c :: t => pat.isPrefixOf (c :: t) || containsSeq pat t

/-- Modelled from the spec: the command policy blocklist patterns
(spec section 4.1 — destructive wipe of root, privilege escalation,
power-state change), as tested in src/tests/test_v1_basic_agent.py.  The
blocklist itself lives in v1_basic_agent.py, which is not among the
provided source files; server.py has no counterpart of it. -/
def blocked_patterns : List String :=
  ["rm -rf /", "sudo", "shutdown", "reboot"]

/-- Whether a command string contains one of the blocked patterns. -/
def containsBlocked (command : String) : Bool :=
  blocked_patterns.any (fun pat => containsSeq pat.data command.data)

/-! ## Tool dispatch inside the session loop (src/web_ui/server.py, lines 388-412) -/

/-- Lookup of a key in a tool-input object (a Python dict modelled as an
association list). -/
def lookupKey (input : List (String × String)) (k : String) : Option String :=
  match input with
  | [] => none
  | (k2, v) :: rest => if k2 = k then some v else lookupKey rest k

/-- What the dispatch chain of run_agent does with one requested tool
call: hand it to one of the three implemented tools, raise a KeyError on a
write_file request missing an argument, or produce the
"not implemented" string as the tool result. -/
inductive DispatchOutcome where
  | bashCall (command : String)
  | readCall (file_path : String)
  | writeCall (file_path content : String)
  | keyError
  | notImplemented (msg : String)
  deriving DecidableEq

/-- Tool dispatch of run_agent (server.py lines 393-406): a hardcoded
if/elif chain on the tool name.  The agent's capability set (its tools
field) is not consulted here at all; edit_file and every other name
outside the three implemented ones fall through to the
"Tool ... not implemented in web UI" result string. -/
def dispatch_tool (tool_name : String) (tool_input : List (String × String)) :
    DispatchOutcome :=
  if tool_name = "bash" ∧ (lookupKey tool_input "command").isSome then
    .bashCall ((lookupKey tool_input "command").getD "")
  else if tool_name = "read_file" ∧ (lookupKey tool_input "file_path").isSome then
    .readCall ((lookupKey tool_input "file_path").getD "")
  else if tool_name = "write_file" then
    match lookupKey tool_input "file_path", lookupKey tool_input "content" with
    | some fp, some c => .writeCall fp c
    | _, _ => .keyError
  else .notImplemented ("Tool " ++ tool_name ++ " not implemented in web UI")

/-- Agent types (server.py lines 43-47). -/
inductive AgentType where
  | explore
  | code
  | plan
  | custom
  deriving DecidableEq

/-- AGENT_TYPES_CONFIG (server.py lines 88-105): the tool capability set
of each agent type. -/
def agent_types_config : AgentType → List String
  | .explore => ["bash", "read_file"]
  | .code => ["bash", "read_file", "write_file", "edit_file", "subagent"]
  | .plan => ["bash", "read_file"]
  | .custom => ["bash", "read_file", "write_file", "edit_file"]

/-- Names present in the TOOLS schema registry (server.py lines 235-283). -/
def tools_registry : List String := ["bash", "read_file", "write_file", "edit_file"]

/-- The tool schemas advertised to the model for one agent (server.py
line 316): the agent's capability set filtered to the registry. -/
def available_tools (tools : List String) : List String :=
  tools.filter (fun t => tools_registry.contains t)

/-! ## ConnectionManager (src/web_ui/server.py, lines 114-130) -/

/-- A WebSocket connection: an identity, whether its channel is broken
(send_json raises), and the messages delivered to it so far. -/
structure Conn where
  id : Nat
  broken : Bool
  received : List String
  deriving DecidableEq

/-- Delivery of one message over one connection: fails (returns none, the
raised exception) on a broken channel, otherwise appends the message to
the connection's received list. -/
def send_json (c : Conn) (message : String) : Option Conn :=
  if c.broken then none else some { c with received := c.received ++ [message] }

/-- ConnectionManager.broadcast (server.py lines 125-130): iterate over
all active connections, try to send to each, and swallow any delivery
failure (the bare except: pass), leaving the failing connection as it
was.  The function is total: no exception reaches the publisher. -/
def broadcast (conns : List Conn) (message : String) : List Conn :=
  conns.map (fun c =>
    match send_json c message with
    | some c2 => c2
    | none => c)

/-- Remove the first occurrence of an element from a list — the semantics
of Python list.remove when the element is present. -/
def list_remove [DecidableEq α] : List α → α → List α
  | [], _ => []
  | x :: t, a => if x = a then t else x :: list_remove t a

/-- Occurrence count of an element in a list. -/
def list_count [DecidableEq α] : List α → α → Nat
  | [], _ => 0
  | x :: t, a => (if x = a then 1 else 0) + list_count t a

/-- ConnectionManager.disconnect (server.py lines 122-123):
self.active_connections.remove(websocket).  Python list.remove removes the
first occurrence, and raises ValueError when the element is absent —
modelled as the none result. -/
def disconnect (conns : List Conn) (websocket : Conn) : Option (List Conn) :=
  if websocket ∈ conns then some (list_remove conns websocket) else none

/-! ## Agent store and supervisor endpoints (src/web_ui/server.py, lines 50-111 and 500-559) -/

/-- Agent status values (server.py lines 50-56). -/
inductive AgentStatus where
  | created
  | running
  | waiting
  | completed
  | error
  | stopped
  deriving DecidableEq

/-- One transcript entry (server.py lines 67-70). -/
structure AgentMessage where
  role : String
  content : String
  timestamp : String
  deriving DecidableEq

/-- An agent entity (server.py lines 73-84). -/
structure Agent where
  id : String
  name : String
  agent_type : AgentType
  task : String
  status : AgentStatus
  parent_id : Option String
  children : List String
  messages : List AgentMessage
  created_at : String
  updated_at : String
  tools : List String
  deriving DecidableEq

/-- The module-level mutable state of server.py (lines 109-110): the
agents dict and the active_tasks dict (only the presence of a task —
a RunHandle — matters to the handlers). -/
structure ServerState where
  agents : String → Option Agent
  active_tasks : String → Bool

/-- Errors raised by the HTTP handlers: the 404 for a missing agent, the
400 for a duplicate start, and the ValueError escaping from list.remove
(which surfaces as a 500). -/
inductive ApiError where
  | notFound
  | conflict
  | valueError
  deriving DecidableEq

/-- Update one key of the agents dict. -/
def store_set (m : String → Option Agent) (k : String) (v : Agent) :
    String → Option Agent :=
  fun q => if q = k then some v else m q

/-- Delete one key of the agents dict. -/
def store_del (m : String → Option Agent) (k : String) :
    String → Option Agent :=
  fun q => if q = k then none else m q

/-- start_agent (server.py lines 500-513): 404 when the agent does not
exist; 400 Conflict when a task handle already exists for the id;
otherwise create the run task and install its handle, returning without
waiting for the run.  Between the membership check and the installation
the handler never awaits, so under the asyncio event loop the
check-and-set is atomic: two racing calls execute it in some sequential
order. -/
def start_agent (s : ServerState) (agent_id : String) : Except ApiError ServerState :=
  match s.agents agent_id with
  | none => .error .notFound
  | some _ =>
    if s.active_tasks agent_id then .error .conflict
    else .ok { s with active_tasks := fun q => if q = agent_id then true else s.active_tasks q }

/-- stop_agent (server.py lines 516-534): 404 when the agent does not
exist; otherwise set the agent's status to STOPPED and, when a task handle
exists, cancel it and drop it from active_tasks. -/
def stop_agent (s : ServerState) (agent_id : String) : Except ApiError ServerState :=
  match s.agents agent_id with
  | none => .error .notFound
  | some a =>
    let s1 : ServerState :=
      { s with agents := store_set s.agents agent_id { a with status := .stopped } }
    if s1.active_tasks agent_id then
      .ok { s1 with active_tasks := fun q => if q = agent_id then false else s1.active_tasks q }
    else .ok s1

/-- delete_agent (server.py lines 537-559): 404 when the agent does not
exist; stop it first when it is running; then, when its parent_id is
truthy and names an existing agent, remove the id from that parent's
children via list.remove (which raises ValueError when the id is absent);
finally delete the entity.  Nothing is done to the deleted agent's own
children — no cascade, no fix-up of their parent_id. -/
def delete_agent (s : ServerState) (agent_id : String) : Except ApiError ServerState :=
  match s.agents agent_id with
  | none => .error .notFound
  | some _ =>
    match (if s.active_tasks agent_id then stop_agent s agent_id else .ok s) with
    | .error e => .error e
    | .ok s1 =>
      match s1.agents agent_id with
      | none => .error .notFound
      | some a =>
        match a.parent_id with
        | some pid =>
          if pid = "" then .ok { s1 with agents := store_del s1.agents agent_id }
          else
            match s1.agents pid with
            | some p =>
              if agent_id ∈ p.children then
                let fixed := store_set s1.agents pid { p with children := list_remove p.children agent_id }
                .ok { s1 with agents := store_del fixed agent_id }
              else .error .valueError
            | none => .ok { s1 with agents := store_del s1.agents agent_id }
        | none => .ok { s1 with agents := store_del s1.agents agent_id }

/-! ## The session loop (src/web_ui/server.py, lines 295-437)

The loop is projected onto its control state: the agent status, the count
of model calls, and the Python loop variable (the index of the last
iteration whose body was entered).  The model client is a function from
the iteration index to the response of that call; the external stop signal
(stop_agent setting the shared status field to STOPPED) is a predicate
saying whether the status reads STOPPED when the check at the top of that
iteration runs. -/

/-- The part of a model response the loop's control flow depends on
(server.py lines 375 and 384 compare only stop_reason). -/
structure ModelResponse where
  stop_reason : String
  deriving DecidableEq

/-- The iteration cap of the session loop (server.py line 341). -/
def max_iterations : Nat := 25

/-- The for-loop of run_agent (server.py lines 342-416), one recursive
step per iteration index: break when a stop has been observed (status
STOPPED stays), invoke the model, break with status COMPLETED on an
end_turn response, continue with status WAITING after a tool_use response,
and continue with status RUNNING on any other response.  Returns the
Python loop variable (the last index whose body was entered), the number
of model calls made, and the status when the loop ends. -/
def run_agent_loop (client : Nat → ModelResponse) (stop_signal : Nat → Bool) :
    List Nat → Nat → AgentStatus → Option Nat → Option Nat × Nat × AgentStatus
  | [], calls, status, last => (last, calls, status)
  | i :: rest, calls, status, _ =>
    if stop_signal i = true ∨ status = AgentStatus.stopped then
      (some i, calls, AgentStatus.stopped)
    else if (client i).stop_reason = "end_turn" then
      (some i, calls + 1, AgentStatus.completed)
    else if (client i).stop_reason = "tool_use" then
      run_agent_loop client stop_signal rest (calls + 1) AgentStatus.waiting (some i)
    else
      run_agent_loop client stop_signal rest (calls + 1) AgentStatus.running (some i)

/-- run_agent (server.py lines 295-437) projected onto its control state:
status RUNNING is set before the loop; the loop runs over
range(max_iterations); afterwards (lines 418-424), whenever the loop
variable reached max_iterations - 1, the status is overwritten with ERROR
and the string "Max iterations reached" is broadcast as the error field of
an agent_status event — regardless of how the loop ended.  Returns the
number of model calls, the final status, and the broadcast error field. -/
def run_agent (client : Nat → ModelResponse) (stop_signal : Nat → Bool) :
    Nat × AgentStatus × Option String :=
  match run_agent_loop client stop_signal (List.range max_iterations) 0 AgentStatus.running none with
  | (last, calls, status) =>
    match last with
    | some i =>
      if max_iterations - 1 ≤ i then (calls, AgentStatus.error, some "Max iterations reached")
      else (calls, status, none)
    | none => (calls, status, none)

/-! ## The Sandbox editFile operation (spec section 4.1)

run_edit is implemented in v1_basic_agent.py, which is not among the
provided source files; only its tests are (src/tests/test_v1_basic_agent.py,
TestEditFileTool).  It is therefore modelled from the spec. -/

/-- Replace the first occurrence of old_text in a character list, or
return none when old_text does not occur. -/
def replaceFirst (old_text new_text : List Char) : List Char → Option (List Char)
  | [] =>
    if old_text.isPrefixOf [] then some (new_text ++ List.drop old_text.length [])
    else none
  | c :: t =>
    if old_text.isPrefixOf (c :: t) then some (new_text ++ List.drop old_text.length (c :: t))
    else (replaceFirst old_text new_text t).map (fun r => c :: r)

/-- old_text occurs contiguously inside s. -/
def occursIn (old_text s : List Char) : Prop :=
  ∃ pre post, s = pre ++ old_text ++ post

/-- Outcome of the Sandbox editFile operation, per the spec's error
taxonomy (section 7). -/
inductive EditResult where
  | edited
  | pathEscape
  | notFound
  | textNotFound
  deriving DecidableEq

/-- Modelled from the spec: editFile(path, oldText, newText) of the
Sandbox (spec section 4.1; implemented as run_edit in v1_basic_agent.py,
absent from the provided sources, and exercised by
src/tests/test_v1_basic_agent.py TestEditFileTool): resolve the path
against the workspace root, fail with NotFound when the file is absent,
fail with TextNotFound when oldText does not occur verbatim, and otherwise
replace only the first occurrence, leaving the rest of the file
untouched. -/
def run_edit (root : String) (fs : String → Option String)
    (path old_text new_text : String) : EditResult × (String → Option String) :=
  let rp := canonicalResolve root path
  if underRoot root rp = true then
    match fs rp with
    | none => (.notFound, fs)
    | some content =>
      match replaceFirst old_text.data new_text.data content.data with
      | none => (.textNotFound, fs)
      | some r => (.edited, fun q => if q = rp then some (String.mk r) else fs q)
  else (.pathEscape, fs)

/-- Number of non-overlapping occurrences of pat in s, scanning left to
right (fuel-driven helper). -/
def countOccAux (pat : List Char) : Nat → List Char → Nat
  | 0, _ => 0
  | fuel + 1, s =>
    if ¬ pat = [] ∧ pat.isPrefixOf s then
      1 + countOccAux pat fuel (List.drop pat.length s)
    else
      match s with
      | [] => 0
      | _ :: t => countOccAux pat fuel t

/-- Number of non-overlapping occurrences of pat in s. -/
def countOcc (s pat : String) : Nat :=
  countOccAux pat.data s.data.length s.data

/-- A small agent literal for concrete instantiations. -/
def mkAgent (id : String) (parent_id : Option String) (children : List String) : Agent :=
  { id := id, name := id, agent_type := AgentType.custom, task := "task",
    status := AgentStatus.created, parent_id := parent_id, children := children,
    messages := [], created_at := "", updated_at := "", tools := ["bash", "read_file"] }

/-! ## Helper lemmas -/

theorem isPrefixOf_iff (a : List Char) : ∀ b : List Char,
    a.isPrefixOf b = true ↔ ∃ t, b = a ++ t := by
  induction a with
  | nil =>
    intro b
    simp [List.isPrefixOf]
  | cons x xs ih =>
    intro b
    cases b with
    | nil =>
      simp [List.isPrefixOf]
    | cons y ys =>
      simp only [List.isPrefixOf, Bool.and_eq_true, beq_iff_eq, ih, List.cons_append,
        List.cons.injEq]
      constructor
      · rintro ⟨rfl, t, rfl⟩
        exact ⟨t, rfl, rfl⟩
      · rintro ⟨t, rfl, rfl⟩
        exact ⟨rfl, t, rfl⟩

theorem replaceFirst_eq_some (old_text new_text : List Char) :
    ∀ s r : List Char, replaceFirst old_text new_text s = some r →
      ∃ pre post, s = pre ++ old_text ++ post ∧ r = pre ++ new_text ++ post ∧
        ∀ pre2 post2, s = pre2 ++ old_text ++ post2 → pre.length ≤ pre2.length := by
  intro s
  induction s with
  | nil =>
    intro r h
    simp only [replaceFirst] at h
    split at h
    case isTrue hp =>
      obtain ⟨t, ht⟩ := (isPrefixOf_iff _ _).mp hp
      have hold : old_text = [] := by
        cases old_text with
        | nil => rfl
        | cons c cs => simp at ht
      subst hold
      refine ⟨[], [], by simp, ?_, fun pre2 post2 _ => Nat.zero_le _⟩
      simp at h
      simp [← h]
    case isFalse hp =>
      exact absurd h (by simp)
  | cons c t ih =>
    intro r h
    simp only [replaceFirst] at h
    split at h
    case isTrue hp =>
      obtain ⟨tail, htl⟩ := (isPrefixOf_iff _ _).mp hp
      have hdrop : List.drop old_text.length (c :: t) = tail := by
        rw [htl, List.drop_left]
      refine ⟨[], tail, by simpa using htl, ?_, fun pre2 post2 _ => Nat.zero_le _⟩
      rw [hdrop] at h
      simp at h
      simp [← h]
    case isFalse hp =>
      obtain ⟨r0, hr0, hmap⟩ := Option.map_eq_some'.mp h
      obtain ⟨pre, post, hs, hr, hmin⟩ := ih r0 hr0
      refine ⟨c :: pre, post, by simp [hs], by simp [← hmap, hr], ?_⟩
      intro pre2 post2 h2
      cases pre2 with
      | nil =>
        exact absurd ((isPrefixOf_iff _ _).mpr ⟨post2, by simpa using h2⟩) hp
      | cons d pre2' =>
        simp only [List.cons_append, List.cons.injEq] at h2
        exact Nat.succ_le_succ (hmin pre2' post2 h2.2)

theorem replaceFirst_of_occurs (old_text new_text : List Char) :
    ∀ s : List Char, occursIn old_text s →
      ∃ r, replaceFirst old_text new_text s = some r := by
  intro s
  induction s with
  | nil =>
    rintro ⟨pre, post, h⟩
    have h3 : (pre = [] ∧ old_text = []) ∧ post = [] := by
      simpa using List.append_eq_nil.mp h.symm
    have hold : old_text.isPrefixOf [] = true := by
      rw [isPrefixOf_iff]
      exact ⟨post, by simp [h3.1.2, h3.2]⟩
    exact ⟨new_text ++ List.drop old_text.length [], by simp [replaceFirst, hold]⟩
  | cons c t ih =>
    rintro ⟨pre, post, h⟩
    by_cases hp : old_text.isPrefixOf (c :: t) = true
    · exact ⟨new_text ++ List.drop old_text.length (c :: t), by simp [replaceFirst, hp]⟩
    · cases pre with
      | nil =>
        exact absurd ((isPrefixOf_iff _ _).mpr ⟨post, by simpa using h⟩) hp
      | cons d pre' =>
        simp only [List.cons_append, List.cons.injEq] at h
        obtain ⟨r, hr⟩ := ih ⟨pre', post, h.2⟩
        exact ⟨c :: r, by simp [replaceFirst, hp, hr]⟩

theorem list_remove_of_mem [DecidableEq α] :
    ∀ (l : List α) (a : α), a ∈ l →
      ∃ l1 l2, l = l1 ++ a :: l2 ∧ a ∉ l1 ∧ list_remove l a = l1 ++ l2 := by
  intro l a
  induction l with
  | nil => simp
  | cons x t ih =>
    intro hmem
    by_cases hx : x = a
    · subst hx
      exact ⟨[], t, rfl, by simp, by simp [list_remove]⟩
    · have hmem' : a ∈ t := by
        rcases List.mem_cons.mp hmem with h | h
        · exact absurd h.symm hx
        · exact h
      obtain ⟨l1, l2, he, hn, hr⟩ := ih hmem'
      refine ⟨x :: l1, l2, by simp [he], ?_, by simp [list_remove, hx, hr]⟩
      simp only [List.mem_cons, not_or]
      exact ⟨fun h => hx h.symm, hn⟩

theorem list_count_eq_zero_not_mem [DecidableEq α] :
    ∀ (l : List α) (a : α), list_count l a = 0 → a ∉ l := by
  intro l a
  induction l with
  | nil => simp
  | cons x t ih =>
    intro h0
    simp only [list_count] at h0
    by_cases hx : x = a
    · simp [hx] at h0
    · have := ih (by omega)
      simp only [List.mem_cons, not_or]
      exact ⟨fun h => hx h.symm, this⟩

theorem list_count_one_not_mem_remove [DecidableEq α] :
    ∀ (l : List α) (a : α), list_count l a = 1 → a ∉ list_remove l a := by
  intro l a
  induction l with
  | nil => simp [list_remove]
  | cons x t ih =>
    intro h1
    simp only [list_count] at h1
    by_cases hx : x = a
    · have hz : list_count t a = 0 := by simp [hx] at h1; omega
      simpa [list_remove, hx] using list_count_eq_zero_not_mem t a hz
    · have h1' : list_count t a = 1 := by simp [hx] at h1; omega
      have := ih h1'
      simp only [list_remove, if_neg hx, List.mem_cons, not_or]
      exact ⟨fun h => hx h.symm, this⟩

theorem run_agent_loop_run_all (client : Nat → ModelResponse) (stop_signal : Nat → Bool) :
    ∀ (iters0 : List Nat) (k : Nat) (calls : Nat) (st : AgentStatus) (last : Option Nat),
      (∀ i ∈ iters0 ++ [k], stop_signal i = false) →
      (∀ i ∈ iters0 ++ [k], ¬ (client i).stop_reason = "end_turn") →
      ¬ st = AgentStatus.stopped →
      ∃ st2, ¬ st2 = AgentStatus.stopped ∧
        run_agent_loop client stop_signal (iters0 ++ [k]) calls st last
          = (some k, calls + (iters0.length + 1), st2) := by
  intro iters0
  induction iters0 with
  | nil =>
    intro k calls st last hs he hst
    have hsk := hs k (by simp)
    have hek := he k (by simp)
    by_cases htu : (client k).stop_reason = "tool_use"
    · exact ⟨AgentStatus.waiting, by simp,
        by simp [run_agent_loop, hsk, hek, hst, htu]⟩
    · exact ⟨AgentStatus.running, by simp,
        by simp [run_agent_loop, hsk, hek, hst, htu]⟩
  | cons i rest ih =>
    intro k calls st last hs he hst
    have hsi := hs i (by simp)
    have hei := he i (by simp)
    have hs' : ∀ j ∈ rest ++ [k], stop_signal j = false := fun j hj => hs j (by simp [hj])
    have he' : ∀ j ∈ rest ++ [k], ¬ (client j).stop_reason = "end_turn" :=
      fun j hj => he j (by simp [hj])
    have harith : calls + 1 + (rest.length + 1) = calls + (rest.length + 1 + 1) := by omega
    by_cases htu : (client i).stop_reason = "tool_use"
    · obtain ⟨st2, hst2, heq⟩ :=
        ih k (calls + 1) AgentStatus.waiting (some i) hs' he' (by simp)
      refine ⟨st2, hst2, ?_⟩
      rw [harith] at heq
      simpa [run_agent_loop, hsi, hei, hst, htu] using heq
    · obtain ⟨st2, hst2, heq⟩ :=
        ih k (calls + 1) AgentStatus.running (some i) hs' he' (by simp)
      refine ⟨st2, hst2, ?_⟩
      rw [harith] at heq
      simpa [run_agent_loop, hsi, hei, hst, htu] using heq

/-! ## Claims -/

/-- C1 (counterexample): the claim "for every path whose canonical
resolution lies outside the workspace root, the file tools fail with
PathEscapeError and perform no filesystem access" is false for the web UI
file tools: /etc/passwd resolves outside the root /workspace, yet
read_file returns the file's contents — the filesystem is accessed and no
path-escape failure exists in the code. -/
theorem read_file_outside_root_returns_content :
    underRoot "/workspace" (canonicalResolve "/workspace" "/etc/passwd") = false ∧
    read_file (fun q => if q = "/etc/passwd" then some "root:x:0:0:root:/root:/bin/bash" else none)
        "/etc/passwd"
      = ReadResult.content "root:x:0:0:root:/root:/bin/bash" := by
  exact ⟨by decide, by decide⟩

/-- C1 (amended): the web UI file tools perform no path confinement at
all.  For every path — in particular every path whose canonical
resolution against the workspace root lies outside that root — read_file
reads directly at the given path (returning the contents when the file
exists) and write_file writes directly at the given path; neither ever
fails with a path-escape error (no such outcome exists in their result
types, mirroring the code). -/
theorem file_tools_ignore_workspace_root (root p : String) (fs : String → Option String)
    (c w : String)
    (hout : underRoot root (canonicalResolve root p) = false)
    (hc : fs p = some c) (hd : ¬ dirname p = "") :
    read_file fs p = ReadResult.content c ∧
    (write_file fs p w).1 p = some w ∧
    (write_file fs p w).2 = WriteResult.wrote w.length := by
  refine ⟨by simp [read_file, hc], ?_, ?_⟩ <;> simp [write_file, hd]

/-- C1 (witness). -/
theorem file_tools_ignore_workspace_root_witness :
    read_file (fun q => if q = "/etc/shadow" then some "root:secret" else none) "/etc/shadow"
      = ReadResult.content "root:secret" ∧
    (write_file (fun q => if q = "/etc/shadow" then some "root:secret" else none)
        "/etc/shadow" "owned").1 "/etc/shadow" = some "owned" ∧
    (write_file (fun q => if q = "/etc/shadow" then some "root:secret" else none)
        "/etc/shadow" "owned").2 = WriteResult.wrote "owned".length :=
  file_tools_ignore_workspace_root "/workspace" "/etc/shadow" _ "root:secret" "owned"
    (by decide) (by decide) (by decide)

/-- C2 (counterexample): the claim "for every command containing a blocked
pattern, the bash tool fails with PolicyViolation before execution and no
process is spawned" is false for the web UI bash tool: the command
"sudo rm -rf /" contains blocked patterns, yet execute_bash hands it to
the shell — a process is spawned and no policy failure exists in the
code. -/
theorem execute_bash_spawns_blocked_command :
    containsBlocked "sudo rm -rf /" = true ∧
    (execute_bash (fun _ => ("", "")) "sudo rm -rf /").spawned = ["sudo rm -rf /"] := by
  exact ⟨by decide, by decide⟩

/-- C2 (amended): the web UI bash tool applies no policy blocklist.
Every command — in particular every command containing a blocked pattern —
is passed to the shell exactly once, and the result returned is the
shell's stdout when nonempty, its stderr otherwise; no policy-violation
failure exists in the code. -/
theorem execute_bash_never_blocks (shell : String → String × String) (command : String)
    (hb : containsBlocked command = true) :
    (execute_bash shell command).spawned = [command] ∧
    (execute_bash shell command).result
      = (if (shell command).1 = "" then (shell command).2 else (shell command).1) := by
  exact ⟨rfl, rfl⟩

/-- C2 (witness). -/
theorem execute_bash_never_blocks_witness :
    containsBlocked "shutdown now" = true ∧
    (execute_bash (fun _ => ("ok", "")) "shutdown now").spawned = ["shutdown now"] :=
  ⟨by decide, (execute_bash_never_blocks (fun _ => ("ok", "")) "shutdown now" (by decide)).1⟩

/-- C3 (counterexample): the claim "tools in the agent's capability set
are dispatched to their implementation" is false: edit_file is in the
capability set of the code agent type (and is even advertised to the model
through available_tools), yet the dispatch chain of run_agent does not
dispatch it — it produces the "not implemented" string as the tool
result. -/
theorem edit_file_in_capabilities_not_dispatched :
    "edit_file" ∈ agent_types_config AgentType.code ∧
    "edit_file" ∈ available_tools (agent_types_config AgentType.code) ∧
    dispatch_tool "edit_file" [("file_path", "a.txt"), ("old_string", "x"), ("new_string", "y")]
      = DispatchOutcome.notImplemented "Tool edit_file not implemented in web UI" := by
  exact ⟨by decide, by decide, by decide⟩

/-- C3 (amended): the dispatch chain of run_agent selects on the hardcoded
tool name only and never consults the agent's capability set.  A requested
name outside bash / read_file / write_file — even one present in the
capability set, such as edit_file — yields the string
"Tool (name) not implemented in web UI" as that call's tool result instead
of a dispatch; and a request named bash carrying a command key is
dispatched to the bash implementation even when bash is not in the
capability set. -/
theorem dispatch_ignores_capability_set (caps : List String) (tool_name : String)
    (tool_input : List (String × String)) :
    (tool_name ∈ caps → ¬ tool_name ∈ (["bash", "read_file", "write_file"] : List String) →
      dispatch_tool tool_name tool_input
        = DispatchOutcome.notImplemented ("Tool " ++ tool_name ++ " not implemented in web UI")) ∧
    (∀ command, ¬ "bash" ∈ caps → lookupKey tool_input "command" = some command →
      dispatch_tool "bash" tool_input = DispatchOutcome.bashCall command) := by
  constructor
  · intro _ hnot
    have h1 : ¬ tool_name = "bash" := fun h => hnot (by simp [h])
    have h2 : ¬ tool_name = "read_file" := fun h => hnot (by simp [h])
    have h3 : ¬ tool_name = "write_file" := fun h => hnot (by simp [h])
    simp [dispatch_tool, h1, h2, h3]
  · intro command _ hcmd
    simp [dispatch_tool, hcmd]

/-- C3 (witness). -/
theorem dispatch_ignores_capability_set_witness :
    dispatch_tool "edit_file" [("file_path", "a.txt")]
      = DispatchOutcome.notImplemented "Tool edit_file not implemented in web UI" ∧
    dispatch_tool "bash" [("command", "ls")] = DispatchOutcome.bashCall "ls" :=
  ⟨(dispatch_ignores_capability_set ["edit_file"] "edit_file" [("file_path", "a.txt")]).1
      (by decide) (by decide),
    (dispatch_ignores_capability_set ["edit_file"] "bash" [("command", "ls")]).2 "ls"
      (by decide) (by decide)⟩

/-- C7: when one subscriber's delivery channel is broken, broadcast still
delivers the event to every other currently-registered subscriber — each
non-broken connection receives the message appended to its received list —
and broadcast is a total function, so no delivery failure reaches the
publisher. -/
theorem broadcast_delivers_despite_broken_subscriber (conns : List Conn) (message : String)
    (i : Nat) (c : Conn) (hc : conns[i]? = some c) (hok : c.broken = false)
    (j : Nat) (b : Conn) (hb : conns[j]? = some b) (hbroken : b.broken = true) :
    (broadcast conns message)[i]? = some { c with received := c.received ++ [message] } := by
  simp [broadcast, List.getElem?_map, hc, send_json, hok]

/-- C7 (witness). -/
theorem broadcast_delivers_despite_broken_subscriber_witness :
    (broadcast [⟨0, true, []⟩, ⟨1, false, []⟩] "ev")[1]? = some ⟨1, false, ["ev"]⟩ :=
  broadcast_delivers_despite_broken_subscriber [⟨0, true, []⟩, ⟨1, false, []⟩] "ev"
    1 ⟨1, false, []⟩ (by decide) rfl 0 ⟨0, true, []⟩ (by decide) rfl

/-- C8 (counterexample): the claim "unsubscribe is safe to call even if
the handle was already removed (a second unsubscribe of the same handle
does not raise)" is false: after the first disconnect removes the only
occurrence, a second disconnect of the same handle hits Python
list.remove on a list not containing it, which raises ValueError
(modelled as the none result). -/
theorem second_disconnect_raises :
    disconnect [⟨0, false, []⟩] ⟨0, false, []⟩ = some [] ∧
    disconnect [] (⟨0, false, []⟩ : Conn) = none := by
  exact ⟨by decide, by decide⟩

/-- C8 (amended): disconnect removes the first occurrence of the handle
from the subscriber list when the handle is present; when it is absent —
in particular when it was already removed — the underlying list.remove
raises ValueError instead of leaving the list unchanged. -/
theorem disconnect_removes_first_occurrence_or_raises (conns : List Conn) (websocket : Conn) :
    (websocket ∈ conns →
      disconnect conns websocket = some (list_remove conns websocket) ∧
      ∃ l1 l2, conns = l1 ++ websocket :: l2 ∧ websocket ∉ l1 ∧
        list_remove conns websocket = l1 ++ l2) ∧
    (websocket ∉ conns → disconnect conns websocket = none) := by
  constructor
  · intro hmem
    exact ⟨by simp [disconnect, hmem], list_remove_of_mem conns websocket hmem⟩
  · intro hmem
    simp [disconnect, hmem]

/-- C8 (witness). -/
theorem disconnect_removes_first_occurrence_or_raises_witness :
    disconnect [⟨0, false, []⟩, ⟨1, false, []⟩] ⟨0, false, []⟩ = some [⟨1, false, []⟩] := by
  have h := (disconnect_removes_first_occurrence_or_raises
    [⟨0, false, []⟩, ⟨1, false, []⟩] ⟨0, false, []⟩).1 (by decide)
  have h2 : list_remove [(⟨0, false, []⟩ : Conn), ⟨1, false, []⟩] ⟨0, false, []⟩
      = [⟨1, false, []⟩] := by decide
  rw [h2] at h
  exact h.1

/-- C4: for an existing agent, start_agent fails with Conflict whenever a
run handle is already installed; and from a state with no handle, a first
start succeeds and installs the handle (leaving the agent store untouched
and returning without waiting for the run) while an immediately following
second start of the same id fails with Conflict — so of two racing starts,
which the never-awaiting handler executes in some sequential order,
exactly one succeeds. -/
theorem start_agent_conflict_on_second_start (s : ServerState) (agent_id : String) (a : Agent)
    (ha : s.agents agent_id = some a) :
    (s.active_tasks agent_id = true → start_agent s agent_id = Except.error ApiError.conflict) ∧
    (s.active_tasks agent_id = false →
      ∃ s1, start_agent s agent_id = Except.ok s1 ∧ s1.active_tasks agent_id = true ∧
        s1.agents = s.agents ∧ start_agent s1 agent_id = Except.error ApiError.conflict) := by
  constructor
  · intro ht
    simp [start_agent, ha, ht]
  · intro hf
    refine ⟨{ s with active_tasks := fun q => if q = agent_id then true else s.active_tasks q },
      by simp [start_agent, ha, hf], by simp, rfl, by simp [start_agent, ha]⟩

/-- C4 (witness). -/
theorem start_agent_conflict_on_second_start_witness :
    ∃ s1,
      start_agent
          { agents := fun q => if q = "a1" then some (mkAgent "a1" none []) else none,
            active_tasks := fun _ => false } "a1"
        = Except.ok s1 ∧
      s1.active_tasks "a1" = true ∧
      s1.agents = (fun q => if q = "a1" then some (mkAgent "a1" none []) else none) ∧
      start_agent s1 "a1" = Except.error ApiError.conflict :=
  (start_agent_conflict_on_second_start
    { agents := fun q => if q = "a1" then some (mkAgent "a1" none []) else none,
      active_tasks := fun _ => false }
    "a1" (mkAgent "a1" none []) (by decide)).2 rfl

/-- C5: for an agent whose model client never signals completion (no
response has stop_reason end_turn) and which never observes a stop, the
session loop makes exactly max_iterations = 25 model calls and run_agent
then ends with status ERROR, broadcasting "Max iterations reached" as the
error field of the final agent_status event. -/
theorem run_agent_exhausts_iteration_cap (client : Nat → ModelResponse)
    (stop_signal : Nat → Bool)
    (he : ∀ i, ¬ (client i).stop_reason = "end_turn")
    (hs : ∀ i, stop_signal i = false) :
    run_agent client stop_signal = (25, AgentStatus.error, some "Max iterations reached") := by
  obtain ⟨st2, hst2, heq⟩ :=
    run_agent_loop_run_all client stop_signal (List.range 24) 24 0 AgentStatus.running none
      (fun i _ => hs i) (fun i _ => he i) (by simp)
  have hr : List.range max_iterations = List.range 24 ++ [24] := by
    rw [show max_iterations = 24 + 1 from rfl, List.range_succ]
  unfold run_agent
  rw [hr, heq]
  simp [max_iterations]

/-- C5 (witness). -/
theorem run_agent_exhausts_iteration_cap_witness :
    run_agent (fun _ => ⟨"tool_use"⟩) (fun _ => false)
      = (25, AgentStatus.error, some "Max iterations reached") :=
  run_agent_exhausts_iteration_cap (fun _ => ⟨"tool_use"⟩) (fun _ => false)
    (fun _ => by show ¬ ("tool_use" : String) = "end_turn"; decide) (fun _ => rfl)

/-- C10: whenever the body of the final loop iteration (index
max_iterations - 1, i.e. 24) is entered — so the Python loop variable ends
at 24 — the post-loop check of run_agent sets the status to ERROR with the
"Max iterations reached" error broadcast, regardless of how that iteration
ended; in particular a COMPLETED or STOPPED status reached inside the
final iteration is overwritten by ERROR. -/
theorem final_iteration_status_overwritten_to_error (client : Nat → ModelResponse)
    (stop_signal : Nat → Bool)
    (h : (run_agent_loop client stop_signal (List.range max_iterations) 0
        AgentStatus.running none).1 = some 24) :
    (run_agent client stop_signal).2.1 = AgentStatus.error ∧
    (run_agent client stop_signal).2.2 = some "Max iterations reached" := by
  unfold run_agent
  rcases hres : run_agent_loop client stop_signal (List.range max_iterations) 0
      AgentStatus.running none with ⟨last, calls, st⟩
  rw [hres] at h
  simp only at h
  subst h
  simp [max_iterations]

/-- C10 (witness): a client that signals completion exactly in the final
iteration — the loop itself ends with status COMPLETED — still yields
final status ERROR with the max-iterations error. -/
theorem final_iteration_status_overwritten_to_error_witness :
    (run_agent_loop (fun i => if i = 24 then ⟨"end_turn"⟩ else ⟨"tool_use"⟩) (fun _ => false)
        (List.range max_iterations) 0 AgentStatus.running none).2.2 = AgentStatus.completed ∧
    (run_agent (fun i => if i = 24 then ⟨"end_turn"⟩ else ⟨"tool_use"⟩) (fun _ => false)).2.1
      = AgentStatus.error ∧
    (run_agent (fun i => if i = 24 then ⟨"end_turn"⟩ else ⟨"tool_use"⟩) (fun _ => false)).2.2
      = some "Max iterations reached" :=
  ⟨by decide,
    final_iteration_status_overwritten_to_error
      (fun i => if i = 24 then ⟨"end_turn"⟩ else ⟨"tool_use"⟩) (fun _ => false) (by decide)⟩

/-- C6: for a path resolving inside the workspace root, editFile fails
with NotFound when the file is absent and with TextNotFound when oldText
does not occur in the contents (and whenever oldText does occur, the
replacement is defined — the operation never silently no-ops); when
oldText occurs, exactly the first occurrence is replaced: the contents
split as pre ++ oldText ++ post with pre of minimal length, the new
contents are pre ++ newText ++ post (so all later occurrences, lying in
post, are untouched), and no other file changes. -/
theorem run_edit_replaces_first_occurrence (root p old_text new_text : String)
    (fs : String → Option String)
    (hin : underRoot root (canonicalResolve root p) = true) :
    (fs (canonicalResolve root p) = none →
      run_edit root fs p old_text new_text = (EditResult.notFound, fs)) ∧
    (∀ content, fs (canonicalResolve root p) = some content →
      replaceFirst old_text.data new_text.data content.data = none →
      run_edit root fs p old_text new_text = (EditResult.textNotFound, fs)) ∧
    (∀ content, fs (canonicalResolve root p) = some content →
      occursIn old_text.data content.data →
      ∃ r, replaceFirst old_text.data new_text.data content.data = some r) ∧
    (∀ content r, fs (canonicalResolve root p) = some content →
      replaceFirst old_text.data new_text.data content.data = some r →
      (run_edit root fs p old_text new_text).1 = EditResult.edited ∧
      (run_edit root fs p old_text new_text).2 (canonicalResolve root p)
        = some (String.mk r) ∧
      (∀ q, ¬ q = canonicalResolve root p →
        (run_edit root fs p old_text new_text).2 q = fs q) ∧
      ∃ pre post, content.data = pre ++ old_text.data ++ post ∧
        r = pre ++ new_text.data ++ post ∧
        ∀ pre2 post2, content.data = pre2 ++ old_text.data ++ post2 →
          pre.length ≤ pre2.length) := by
  refine ⟨?_, ?_, ?_, ?_⟩
  · intro hnone
    simp [run_edit, hin, hnone]
  · intro content hsome hrep
    simp [run_edit, hin, hsome, hrep]
  · intro content _ hocc
    exact replaceFirst_of_occurs _ _ _ hocc
  · intro content r hsome hrep
    refine ⟨?_, ?_, ?_, replaceFirst_eq_some _ _ _ _ hrep⟩
    · simp [run_edit, hin, hsome, hrep]
    · simp [run_edit, hin, hsome, hrep]
    · intro q hq
      simp [run_edit, hin, hsome, hrep, hq]

/-- C6 (witness): on the contents "foo(nl)foo(nl)foo", editing "foo" to
"bar" yields "bar(nl)foo(nl)foo" — exactly one bar and two remaining
foo. -/
theorem run_edit_replaces_first_occurrence_witness :
    (run_edit "/ws" (fun q => if q = "/ws/repeat.txt" then some "foo\nfoo\nfoo" else none)
        "repeat.txt" "foo" "bar").1 = EditResult.edited ∧
    (run_edit "/ws" (fun q => if q = "/ws/repeat.txt" then some "foo\nfoo\nfoo" else none)
        "repeat.txt" "foo" "bar").2 "/ws/repeat.txt" = some "bar\nfoo\nfoo" ∧
    countOcc "bar\nfoo\nfoo" "bar" = 1 ∧
    countOcc "bar\nfoo\nfoo" "foo" = 2 := by
  have h := (run_edit_replaces_first_occurrence "/ws" "repeat.txt" "foo" "bar"
      (fun q => if q = "/ws/repeat.txt" then some "foo\nfoo\nfoo" else none)
      (by decide)).2.2.2 "foo\nfoo\nfoo" ("bar\nfoo\nfoo".data) (by decide) (by decide)
  exact ⟨h.1, h.2.1, by decide, by decide⟩

/-- C9: deleting an agent that has an existing parent and a non-empty
children list removes the agent from the store and removes its id from the
parent's children, while every agent that listed the deleted id as its
parent still exists afterwards and still carries the now-dangling
parent_id — no cascade and no fix-up; all unrelated entries are
untouched. -/
theorem delete_agent_orphans_children (s : ServerState) (agent_id pid : String) (a p : Agent)
    (ha : s.agents agent_id = some a) (hpar : a.parent_id = some pid)
    (hpe : ¬ pid = "") (hpa : ¬ pid = agent_id) (hp : s.agents pid = some p)
    (hmem : agent_id ∈ p.children) (hcount : list_count p.children agent_id = 1)
    (hch : ¬ a.children = []) :
    ∃ s2, delete_agent s agent_id = Except.ok s2 ∧
      s2.agents agent_id = none ∧
      (∃ p2, s2.agents pid = some p2 ∧
        p2.children = list_remove p.children agent_id ∧
        agent_id ∉ p2.children ∧ p2.parent_id = p.parent_id) ∧
      (∀ c ca, ¬ c = pid → ¬ c = agent_id → s.agents c = some ca → s2.agents c = some ca) ∧
      (∀ c ca, s.agents c = some ca → ca.parent_id = some agent_id →
        ∃ ca2, s2.agents c = some ca2 ∧ ca2.parent_id = some agent_id) := by
  have hca_of : ∀ c ca, s.agents c = some ca → ca.parent_id = some agent_id →
      ¬ c = agent_id := by
    intro c ca hsc hcp h
    subst h
    rw [ha] at hsc
    have : a = ca := by injection hsc
    subst this
    rw [hpar] at hcp
    exact hpa (by injection hcp)
  by_cases hrun : s.active_tasks agent_id = true
  · -- the agent is running: delete first stops it, which only rewrites the
    -- deleted entry's status and clears the task handle
    refine
      ⟨{ agents := store_del (store_set (store_set s.agents agent_id { a with status := AgentStatus.stopped }) pid { p with children := list_remove p.children agent_id }) agent_id,
         active_tasks := fun q => if q = agent_id then false else s.active_tasks q },
        ?_, ?_, ?_, ?_, ?_⟩
    · simp [delete_agent, stop_agent, ha, hrun, hpar, hpe, hpa, hp, hmem, store_set, store_del]
    · simp [store_del]
    · refine ⟨{ p with children := list_remove p.children agent_id }, ?_, rfl, ?_, rfl⟩
      · simp [store_del, store_set, hpa]
      · exact list_count_one_not_mem_remove p.children agent_id hcount
    · intro c ca hcp hca hsc
      simp [store_del, store_set, hcp, hca, hsc]
    · intro c ca hsc hcp
      have hca := hca_of c ca hsc hcp
      by_cases hcpid : c = pid
      · subst hcpid
        rw [hp] at hsc
        have hpc : p = ca := by injection hsc
        refine ⟨{ p with children := list_remove p.children agent_id }, ?_, ?_⟩
        · simp [store_del, store_set, hpa]
        · show p.parent_id = some agent_id
          rw [hpc]
          exact hcp
      · exact ⟨ca, by simp [store_del, store_set, hcpid, hca, hsc], hcp⟩
  · -- the agent is not running: no stop happens
    have hrun' : s.active_tasks agent_id = false := by
      simpa using hrun
    refine
      ⟨{ agents := store_del (store_set s.agents pid { p with children := list_remove p.children agent_id }) agent_id,
         active_tasks := s.active_tasks },
        ?_, ?_, ?_, ?_, ?_⟩
    · simp [delete_agent, ha, hrun', hpar, hpe, hpa, hp, hmem, store_set, store_del]
    · simp [store_del]
    · refine ⟨{ p with children := list_remove p.children agent_id }, ?_, rfl, ?_, rfl⟩
      · simp [store_del, store_set, hpa]
      · exact list_count_one_not_mem_remove p.children agent_id hcount
    · intro c ca hcp hca hsc
      simp [store_del, store_set, hcp, hca, hsc]
    · intro c ca hsc hcp
      have hca := hca_of c ca hsc hcp
      by_cases hcpid : c = pid
      · subst hcpid
        rw [hp] at hsc
        have hpc : p = ca := by injection hsc
        refine ⟨{ p with children := list_remove p.children agent_id }, ?_, ?_⟩
        · simp [store_del, store_set, hpa]
        · show p.parent_id = some agent_id
          rw [hpc]
          exact hcp
      · exact ⟨ca, by simp [store_del, store_set, hcpid, hca, hsc], hcp⟩

/-- C9 (witness): a three-agent store — parent p1, agent a1 (child of p1,
running), child c1 of a1.  Deleting a1 removes it, empties the children of
p1, and leaves c1 in place still pointing at the vanished a1. -/
theorem delete_agent_orphans_children_witness :
    ∃ s2,
      delete_agent
          { agents := fun q =>
              if q = "a1" then some (mkAgent "a1" (some "p1") ["c1"])
              else if q = "p1" then some (mkAgent "p1" none ["a1"])
              else if q = "c1" then some (mkAgent "c1" (some "a1") [])
              else none,
            active_tasks := fun q => q = "a1" } "a1"
        = Except.ok s2 ∧
      s2.agents "a1" = none ∧
      (∃ p2, s2.agents "p1" = some p2 ∧ p2.children = list_remove ["a1"] "a1" ∧
        "a1" ∉ p2.children ∧ p2.parent_id = none) ∧
      (∃ ca2, s2.agents "c1" = some ca2 ∧ ca2.parent_id = some "a1") := by
  obtain ⟨s2, hdel, hgone, ⟨p2, hp2, hch2, hnm2, hpp2⟩, _, hkids⟩ :=
    delete_agent_orphans_children
      { agents := fun q =>
          if q = "a1" then some (mkAgent "a1" (some "p1") ["c1"])
          else if q = "p1" then some (mkAgent "p1" none ["a1"])
          else if q = "c1" then some (mkAgent "c1" (some "a1") [])
          else none,
        active_tasks := fun q => q = "a1" }
      "a1" "p1" (mkAgent "a1" (some "p1") ["c1"]) (mkAgent "p1" none ["a1"])
      (by decide) rfl (by decide) (by decide) (by decide) (by decide) (by decide) (by decide)
  exact ⟨s2, hdel, hgone, ⟨p2, hp2, hch2, hnm2, hpp2⟩,
    hkids "c1" (mkAgent "c1" (some "a1") []) (by decide) rfl⟩

end WebUI
